import Mathlib

/-!
# Verification of the tama coding-assistant core

A shallow embedding, in Lean 4, of the parts of the `warm3snow/tama`
repository that carry its protocol, state-machine and rollback design:

* the Go string primitives the code relies on (`strings.Split`,
  `strings.SplitN`, `strings.TrimSpace`, `strings.ToLower`, `filepath.Join`);
* the decision parser and validator of `internal/copilot` (`package code`
  variant, `getInitialDecision` / `splitAndTrim` / `validateDecision`);
* the conversation store of `internal/llm/client.go`
  (`AddSystemMessage`, `ClearSystemMessages`, `UpdateConversation`) and the
  purging wrapper of `internal/machine/context.go`;
* the tool registry's `ParseToolCall` (built on `encoding/json.Unmarshal`,
  modelled by an executable JSON parser);
* the provider adapter of `internal/llm` (`sendChatCompletionRequest` /
  `sendStreamingChatCompletionRequest` with their 404/fallback cascade and
  SSE chunk loop);
* the filesystem tool (`file_tools.go`: write/read/backup/restore), a small
  git state model (`git.go`: `reset --hard HEAD`, unknown-operation errors),
  the modification phase handler and `HandleConfirmation`.

Machine integers do not occur on the modelled paths; strings are Lean
`String`s processed as `List Char` (the modelled byte strings are ASCII, so
Go's byte-wise and rune-wise views agree on every input appearing below).
Wall-clock timestamps (`time.Now()`) are not modelled: the timestamped
backup directory name is passed in as an explicit parameter, and the
`Timestamp` field of `Change` is dropped.  Operating-system failures
(`os.WriteFile` errors, `MkdirAll` errors) are not modelled: in the model a
write always succeeds, which matches the code paths the claims quantify
over.  Error messages produced by Go library internals (e.g. the text of an
`encoding/json` error) are modelled by fixed strings; the code's own
`fmt.Errorf` wrapping is reproduced verbatim.
-/

set_option maxRecDepth 4096

namespace Tama

/-! ## Go string primitives

Faithful models of the `strings` / `path/filepath` functions used by the
code, for ASCII input (Go's `unicode.IsSpace` also accepts U+0085 and
U+00A0, and `strings.ToLower` lowercases all of Unicode; no input below
contains such characters).  All separators passed to `strings.Split` /
`strings.SplitN` in the modelled code are single characters, so the split
models take a `Char` separator. -/

/-- `unicode.IsSpace` restricted to ASCII: the characters Go's
`strings.TrimSpace` strips. -/
def goIsSpace (c : Char) : Bool :=
  c == ' ' || c == '\t' || c == '\n' || c == '\x0b' || c == '\x0c' || c == '\r'

/-- `strings.TrimSpace` on the character list. -/
def trimSpaceL (l : List Char) : List Char :=
  ((l.dropWhile goIsSpace).reverse.dropWhile goIsSpace).reverse

/-- `strings.TrimSpace`. -/
def trimSpace (s : String) : String :=
  ⟨trimSpaceL s.data⟩

/-- `strings.Split` with a one-character separator, on character lists:
splits at every occurrence of `sep`, keeping empty segments. -/
def splitCharAux (sep : Char) : List Char → List Char → List (List Char)
  | [], acc => [acc.reverse]
  | c :: rest, acc =>
    if c == sep then acc.reverse :: splitCharAux sep rest []
    else splitCharAux sep rest (c :: acc)

/-- `strings.Split s (String.singleton sep)`. -/
def goSplit (s : String) (sep : Char) : List String :=
  (splitCharAux sep s.data []).map fun l => ⟨l⟩

/-- `strings.SplitN s sep 2` with a one-character separator: the part before
the first occurrence of `sep`, and (when `sep` occurs) everything after it. -/
def splitN2Aux (sep : Char) : List Char → List Char × Option (List Char)
  | [] => ([], none)
  | c :: rest =>
    if c == sep then ([], some rest)
    else
      let r := splitN2Aux sep rest
      (c :: r.1, r.2)

/-- `strings.SplitN s (String.singleton sep) 2`, as the list Go returns
(one element when `sep` does not occur, two otherwise). -/
def goSplitN2 (s : String) (sep : Char) : List String :=
  match splitN2Aux sep s.data with
  | (a, none) => [⟨a⟩]
  | (a, some b) => [⟨a⟩, ⟨b⟩]

/-- ASCII `strings.ToLower`. -/
def goToLower (s : String) : String :=
  ⟨s.data.map Char.toLower⟩

/-- `strings.Contains s sub` for a nonempty `sub`: whether `sub` occurs as a
substring, via `List.isInfix` on the character lists (decidable). -/
def goContains (s sub : String) : Prop :=
  sub.data <:+: s.data

instance (s sub : String) : Decidable (goContains s sub) := by
  unfold goContains; infer_instance

/-- `strings.HasPrefix` via `List.isPrefixOf`. -/
def goHasPrefix (s pre : String) : Bool :=
  pre.data.isPrefixOf s.data

/-- `strings.TrimPrefix`: drops `pre` when it is a prefix. -/
def goTrimPrefix (s pre : String) : String :=
  if goHasPrefix s pre then ⟨s.data.drop pre.data.length⟩ else s

/-! ### `path/filepath` (unix) -/

/-- One step of `filepath.Clean`'s element loop: push a path element onto
the stack of output elements (stack held in reverse). -/
def cleanPush (rooted : Bool) (st : List String) (c : String) : List String :=
  if c = "" || c = "." then st
  else if c = ".." then
    match st with
    | [] => if rooted then [] else [".."]
    | top :: rest => if top = ".." then c :: st else rest
  else c :: st

/-- `filepath.Clean` for slash-separated paths: shortest lexically
equivalent path (`.` and empty elements removed, `..` resolved against
preceding elements, a rooted path never escapes `/`). -/
def pathClean (p : String) : String :=
  if p = "" then "." else
  let rooted := goHasPrefix p "/"
  let comps := goSplit p '/'
  let stack := comps.foldl (cleanPush rooted) []
  let body := String.intercalate "/" stack.reverse
  if rooted then (if body = "" then "/" else "/" ++ body)
  else (if body = "" then "." else body)

/-- Two-argument `filepath.Join`: empty elements are dropped, the rest are
joined with `/` and the result is `Clean`ed. -/
def goJoin (a b : String) : String :=
  if a = "" && b = "" then ""
  else if a = "" then pathClean b
  else if b = "" then pathClean a
  else pathClean (a ++ "/" ++ b)

/-! ## Decision data model and parser

From `part_004` (`package code`): `Change`, `Decision`, `DecisionPhase`
(a string type with four valid values), `splitAndTrim`,
`getInitialDecision`'s parse loop, `isValidPhase`, `validateDecision`.
`Change.Timestamp` (wall clock) is not modelled. -/

/-- `Change` (copilot): one proposed/applied file mutation.  `backup` is Go's
`Backup string` field, empty until populated. -/
structure Change where
  filePath : String
  description : String
  backup : String := ""
  status : String := ""
deriving Repr, DecidableEq

/-- `Decision`: the parsed multi-field decision. -/
structure Decision where
  phase : String
  action : String := ""
  reasoning : String := ""
  context : List String := []
  tools : List String := []
  changes : List Change := []
deriving Repr, DecidableEq

/-- `isValidPhase` from `part_004`. -/
def isValidPhase (phase : String) : Bool :=
  phase == "analysis" || phase == "context" || phase == "modification" ||
    phase == "verification"

/-- `splitAndTrim` from `part_004`: split by the delimiter, trim each part,
drop empty and `"N/A"` parts. -/
def splitAndTrim (s : String) (delimiter : Char) : List String :=
  if s = "" then []
  else ((goSplit s delimiter).map trimSpace).filter
    fun t => t != "" && t != "N/A"

/-- The `Changes` value handling in `getInitialDecision`: split the value by
newlines, skip empty and `"N/A"` entries, split each remaining entry by `|`
and keep exactly the two-part ones as `Change`s (path and description
trimmed). -/
def parseChangesValue (value : String) : List Change :=
  (goSplit value '\n').foldl
    (fun acc change =>
      if change = "" || change = "N/A" then acc
      else
        match goSplit change '|' with
        | [a, b] => acc ++ [{ filePath := trimSpace a, description := trimSpace b }]
        | _ => acc)
    []

/-- One iteration of `getInitialDecision`'s line loop (`part_004`
lines 938–993): trim the line, skip empty lines, split once at `:`, trim key
and value, and dispatch on the recognized keys. -/
def applyDecisionLine (d : Decision) (line0 : String) : Decision :=
  let line := trimSpace line0
  if line = "" then d
  else
    match goSplitN2 line ':' with
    | [k, v] =>
      let key := trimSpace k
      let value := trimSpace v
      if key = "Phase" then
        if isValidPhase value then { d with phase := value } else d
      else if key = "Action" then
        if value != "" && value != "N/A" then { d with action := value } else d
      else if key = "Reasoning" then
        if value != "" && value != "N/A" then { d with reasoning := value } else d
      else if key = "Context" then
        if value != "" && value != "N/A" then { d with context := splitAndTrim value ',' } else d
      else if key = "Tools" then
        if value != "" && value != "N/A" then { d with tools := splitAndTrim value ',' } else d
      else if key = "Changes" then
        if value != "" && value != "N/A" then
          { d with changes := d.changes ++ parseChangesValue value }
        else d
      else d
    | _ => d

/-- The parse part of `getInitialDecision` (`part_004`): start from the
default decision (phase `analysis`, everything else empty) and fold the
line loop over the response split by newlines. -/
def parseDecision (response : String) : Decision :=
  (goSplit response '\n').foldl applyDecisionLine { phase := "analysis" }

/-- `validateDecision` from `part_004`: phase, action and reasoning are
mandatory. -/
def validateDecision (d : Decision) : Except String Unit :=
  if d.phase = "" then .error "phase is required"
  else if d.action = "" then .error "action is required"
  else if d.reasoning = "" then .error "reasoning is required"
  else .ok ()

/-- `getInitialDecision` (`part_004`), given the text the LLM returned:
parse, then validate, wrapping a validation failure as
`invalid decision: …` exactly as `fmt.Errorf` does. -/
def getInitialDecision (response : String) : Except String Decision :=
  let d := parseDecision response
  match validateDecision d with
  | .error e => .error ("invalid decision: " ++ e)
  | .ok _ => .ok d

/-! ## The `ProcessPrompt` background worker (`part_004` lines 366–451)

The goroutine body: obtain the initial decision from the LLM response; on
failure publish one error message and stop; otherwise locate the starting
phase in the fixed four-phase table and run the remaining phases in order.
The trace records, in order, what is published and which phase handlers are
invoked.  The internals of each handler and the per-phase LLM round trips
are not traced (the claims settled against this model only concern whether
a handler runs at all). -/

/-- An observable step of the worker. -/
inductive WorkerEvent where
  | errorMsg (s : String)
  | phaseBanner (s : String)
  | handlerRun (phase : String)
deriving Repr, DecidableEq

/-- The `phases` table of `ProcessPrompt` (`part_004` lines 377–386):
phase name and its banner message, in the fixed order. -/
def phaseTable : List (String × String) :=
  [("analysis", "Starting analysis phase..."),
   ("context", "Gathering context..."),
   ("modification", "Making modifications..."),
   ("verification", "Verifying changes...")]

/-- The worker body, as the trace of events it publishes, given the text the
LLM returned for the analysis prompt. -/
def processPromptWorker (llmResponse : String) : List WorkerEvent :=
  match getInitialDecision llmResponse with
  | .error e => [.errorMsg ("Error analyzing prompt: " ++ e)]
  | .ok d =>
    match phaseTable.findIdx? (fun p => p.1 == d.phase) with
    | none => [.errorMsg ("Error: Invalid phase '" ++ d.phase ++ "'")]
    | some idx =>
      ((phaseTable.drop idx).map
        fun p => [WorkerEvent.phaseBanner ("\n=== " ++ p.2 ++ " ===\n"),
                  WorkerEvent.handlerRun p.1]).flatten

/-! ## Conversation store (`internal/llm/client.go`)

`conversation []Message` with `AddSystemMessage`, `UpdateConversation`,
`ResetConversation`, `ClearSystemMessages`; and the purging wrapper
`ChatHandler.AddSystemMessage` of `internal/machine/context.go`. -/

/-- `Message`: one conversation entry. -/
structure Message where
  role : String
  content : String
deriving Repr, DecidableEq

/-- The 10-entry cap applied after every append
(`if len(c.conversation) > 10 { c.conversation = c.conversation[len-10:] }`). -/
def capConversation (conv : List Message) : List Message :=
  if conv.length > 10 then conv.drop (conv.length - 10) else conv

/-- `Client.AddSystemMessage`: append a system-role message, then cap.
It does not purge earlier system messages. -/
def addSystemMessage (conv : List Message) (content : String) : List Message :=
  capConversation (conv ++ [{ role := "system", content := content }])

/-- `Client.UpdateConversation`: append the user/assistant pair, then cap. -/
def updateConversation (conv : List Message) (userMessage aiResponse : String) :
    List Message :=
  capConversation (conv ++
    [{ role := "user", content := userMessage },
     { role := "assistant", content := aiResponse }])

/-- `Client.ClearSystemMessages`: keep only the non-system messages. -/
def clearSystemMessages (conv : List Message) : List Message :=
  conv.filter fun msg => msg.role != "system"

/-- `ChatHandler.AddSystemMessage` (`internal/machine/context.go`
lines 339–348): clear previous system messages, then add the new one via
`Client.AddSystemMessage`. -/
def chatHandlerAddSystemMessage (conv : List Message) (content : String) :
    List Message :=
  addSystemMessage (clearSystemMessages conv) content

/-! ## `encoding/json` model

The registry's `ParseToolCall` and the adapter's chunk/response handling
all go through `encoding/json.Unmarshal`, which parses the whole input as a
single JSON value (leading/trailing JSON whitespace allowed, anything else
is an error) and then maps object fields onto struct fields, ignoring
unknown keys, taking the last occurrence of a duplicated key, and treating
`null` like an absent field.  The executable parser below implements that
for the JSON subset exercised here: strings with the single-character
escapes (`\u` escapes and non-integer numbers are not modelled; no input in
this development contains either), objects, arrays, integers, booleans and
`null`.  The fuel argument bounds only the nesting/member recursion; string
contents consume no fuel. -/

/-- JSON insignificant whitespace. -/
def isJsonWs (c : Char) : Bool :=
  c == ' ' || c == '\t' || c == '\n' || c == '\r'

/-- Skip insignificant whitespace. -/
def skipWs : List Char → List Char
  | [] => []
  | c :: rest => if isJsonWs c then skipWs rest else c :: rest

/-- JSON values. -/
inductive JVal where
  | str (s : String)
  | num (n : Int)
  | boolean (b : Bool)
  | null
  | arr (xs : List JVal)
  | obj (kvs : List (String × JVal))
deriving Repr

/-- Single-character string escapes. -/
def unescape : Char → Option Char
  | '"' => some '"'
  | '\\' => some '\\'
  | '/' => some '/'
  | 'b' => some '\x08'
  | 'f' => some '\x0c'
  | 'n' => some '\n'
  | 'r' => some '\r'
  | 't' => some '\t'
  | _ => none

/-- Parse a string body after the opening quote: content characters up to
the closing quote, rejecting raw control characters. -/
def parseStringBody : List Char → Option (List Char × List Char)
  | [] => none
  | c :: rest =>
    if c == '"' then some ([], rest)
    else if c == '\\' then
      match rest with
      | [] => none
      | e :: rest2 =>
        match unescape e with
        | none => none
        | some ch =>
          match parseStringBody rest2 with
          | none => none
          | some (s, r) => some (ch :: s, r)
    else if c.val < 32 then none
    else
      match parseStringBody rest with
      | none => none
      | some (s, r) => some (c :: s, r)

/-- Leading decimal digits. -/
def parseDigits : List Char → List Char × List Char
  | [] => ([], [])
  | c :: rest =>
    if c.isDigit then
      let r := parseDigits rest
      (c :: r.1, r.2)
    else ([], c :: rest)

/-- Digit characters to a natural number. -/
def digitsToNat (l : List Char) : Nat :=
  l.foldl (fun n c => n * 10 + (c.toNat - 48)) 0

mutual

/-- Parse one JSON value, returning it with the unconsumed rest. -/
def parseVal : Nat → List Char → Option (JVal × List Char)
  | 0, _ => none
  | fuel + 1, cs =>
    match skipWs cs with
    | [] => none
    | c :: rest =>
      if c == '"' then
        match parseStringBody rest with
        | none => none
        | some (s, r) => some (.str ⟨s⟩, r)
      else if c == '{' then parseObjBody fuel rest
      else if c == '[' then parseArrBody fuel rest
      else if c == 't' then
        match rest with
        | 'r' :: 'u' :: 'e' :: r => some (.boolean true, r)
        | _ => none
      else if c == 'f' then
        match rest with
        | 'a' :: 'l' :: 's' :: 'e' :: r => some (.boolean false, r)
        |  _ => none
      else if c == 'n' then
        match rest with
        | 'u' :: 'l' :: 'l' :: r => some (.null, r)
        | _ => none
      else if c == '-' then
        match parseDigits rest with
        | ([], _) => none
        | (ds, r) => some (.num (-(digitsToNat ds : Int)), r)
      else if c.isDigit then
        match parseDigits (c :: rest) with
        | (ds, r) => some (.num (digitsToNat ds), r)
      else none

/-- Parse an object body after the `{`. -/
def parseObjBody : Nat → List Char → Option (JVal × List Char)
  | 0, _ => none
  | fuel + 1, cs =>
    match skipWs cs with
    | '}' :: rest => some (.obj [], rest)
    | other => parseMembers fuel other []

/-- Parse the members of a non-empty object. -/
def parseMembers : Nat → List Char → List (String × JVal) →
    Option (JVal × List Char)
  | 0, _, _ => none
  | fuel + 1, cs, acc =>
    match skipWs cs with
    | '"' :: rest =>
      match parseStringBody rest with
      | none => none
      | some (k, r1) =>
        match skipWs r1 with
        | ':' :: r2 =>
          match parseVal fuel r2 with
          | none => none
          | some (v, r3) =>
            match skipWs r3 with
            | ',' :: r4 => parseMembers fuel r4 (acc ++ [(⟨k⟩, v)])
            | '}' :: r4 => some (.obj (acc ++ [(⟨k⟩, v)]), r4)
            | _ => none
        | _ => none
    | _ => none

/-- Parse an array body after the `[`. -/
def parseArrBody : Nat → List Char → Option (JVal × List Char)
  | 0, _ => none
  | fuel + 1, cs =>
    match skipWs cs with
    | ']' :: rest => some (.arr [], rest)
    | other => parseElems fuel other []

/-- Parse the elements of a non-empty array. -/
def parseElems : Nat → List Char → List JVal → Option (JVal × List Char)
  | 0, _, _ => none
  | fuel + 1, cs, acc =>
    match parseVal fuel cs with
    | none => none
    | some (v, r) =>
      match skipWs r with
      | ',' :: r2 => parseElems fuel r2 (acc ++ [v])
      | ']' :: r2 => some (.arr (acc ++ [v]), r2)
      | _ => none

end

/-- Fuel used for every parse: the modelled payloads nest at most a handful
of levels and carry few members, and string contents consume no fuel, so a
fixed budget suffices for every input considered in this development. -/
def jsonFuel : Nat := 100

/-- `json.Unmarshal`'s syntactic phase: the whole input must be one JSON
value surrounded by nothing but whitespace. -/
def parseJson (s : String) : Option JVal :=
  match parseVal jsonFuel s.data with
  | none => none
  | some (v, rest) => if skipWs rest = [] then some v else none

/-- `json.Decoder.Decode`'s syntactic phase: one JSON value read off the
front of the input, trailing data ignored. -/
def parseJsonPrefix (s : String) : Option JVal :=
  (parseVal jsonFuel s.data).map Prod.fst

/-- Field lookup in a parsed object, last occurrence winning as in
`encoding/json`. -/
def jLookup (kvs : List (String × JVal)) (k : String) : Option JVal :=
  kvs.foldl (fun acc kv => if kv.1 = k then some kv.2 else acc) none

/-- Unmarshal a field into a Go `string`: absent and `null` leave the zero
value, a non-string value is a type error. -/
def jStringField : Option JVal → Option String
  | none => some ""
  | some (.str t) => some t
  | some .null => some ""
  | some _ => none

/-- Unmarshal a field into a Go `map[string]interface{}`: absent and
`null` leave the zero value, a non-object value is a type error. -/
def jObjField : Option JVal → Option (List (String × JVal))
  | none => some []
  | some (.obj a) => some a
  | some .null => some []
  | some _ => none

/-! ## Tool registry (`internal/tools/registry.go`) -/

/-- The anonymous struct `ParseToolCall` unmarshals into:
`Tool string` tagged `tool`, `Args map[string]interface{}` tagged
`args`. -/
structure ToolCallData where
  tool : String
  args : List (String × JVal)

/-- `json.Unmarshal(response, &call)` for that struct. -/
def unmarshalToolCall (response : String) : Option ToolCallData :=
  match parseJson response with
  | some (.obj kvs) => do
    let t ← jStringField (jLookup kvs "tool")
    let a ← jObjField (jLookup kvs "args")
    some ⟨t, a⟩
  | some .null => some ⟨"", []⟩
  | some _ => none
  | none => none

/-- The tool names registered by `copilot.New` (`internal/copilot/core.go`
lines 110–116). -/
def registryNames : List String :=
  ["edit_file", "read_file", "grep_search", "run_terminal", "git", "filesystem"]

/-- `Registry.ParseToolCall`: unmarshal the response; on success, resolve
the tool name in the registry; `nil` on either failure. -/
def parseToolCall (names : List String) (response : String) :
    Option ToolCallData :=
  match unmarshalToolCall response with
  | none => none
  | some call => if names.contains call.tool then some call else none

/-- What the streaming callback of `ProcessPrompt` (`part_004`
lines 414–428) does with one chunk: a chunk that parses as a tool call is
executed and its tool result published; any other chunk is streamed to the
user as display text. -/
inductive CallbackAction where
  | toolResult (call : ToolCallData)
  | display (chunk : String)

/-- The callback's dispatch on one chunk. -/
def streamCallback (names : List String) (chunk : String) : CallbackAction :=
  match parseToolCall names chunk with
  | some call => .toolResult call
  | none => .display chunk

/-! ## Provider adapter (`internal/llm`, `part_005` / `part_006`)

The backend is modelled as a deterministic function from the request URL to
an optional HTTP response (`none` = transport failure); the request body is
the same marshalled `ChatCompletionRequest` on every call of one completion,
so it carries no information the URL does not.  Each adapter call returns
the ordered list of URLs it POSTed to, alongside its result.  The
OpenAI-type fallback (`sendChatCompletionToOpenAI` in `part_005`) calls
`sendChatCompletionRequest` itself back, so that recursion is bounded by a
fuel parameter; `none` as overall result means the fuel ran out, i.e. the
code is still re-entering the same request path. -/

/-- A provider configuration (`workspace.Provider`): the `Type` field is a
string with constants `"openai"` and `"ollama"`. -/
structure Provider where
  ptype : String
  baseURL : String
  apiKey : String := ""

/-- An HTTP response: status code and body. -/
structure HttpResp where
  status : Nat
  body : String

/-- The OpenAI-compatible endpoint every request tries first. -/
def compatURL (p : Provider) : String :=
  p.baseURL ++ "/v1/chat/completions"

/-- Extract a `ChatCompletionResponse` from a parsed value:
`choices[i].message.content` strings and the optional in-band error
message.  Mirrors `encoding/json` unmarshalling of the struct in
`part_007`: absent/`null` fields keep zero values, mistyped fields are
errors, unknown fields are ignored. -/
def respOfJVal : JVal → Option (List String × Option String)
  | .obj kvs => do
    let choices ←
      match jLookup kvs "choices" with
      | none => some []
      | some .null => some []
      | some (.arr xs) =>
        xs.mapM fun x =>
          match x with
          | .obj ckvs =>
            (match jLookup ckvs "message" with
             | none => some ""
             | some .null => some ""
             | some (.obj mkvs) => jStringField (jLookup mkvs "content")
             | some _ => none)
          | .null => some ""
          | _ => none
      | some _ => none
    let err ←
      match jLookup kvs "error" with
      | none => some none
      | some .null => some none
      | some (.obj ekvs) =>
        (jStringField (jLookup ekvs "message")).map fun m => some m
      | some _ => none
    some (choices, err)
  | .null => some ([], none)
  | _ => none

/-- Extract a `ChatCompletionChunk` from a parsed value:
`choices[i].delta.content` strings and the optional in-band error. -/
def chunkOfJVal : JVal → Option (List String × Option String)
  | .obj kvs => do
    let choices ←
      match jLookup kvs "choices" with
      | none => some []
      | some .null => some []
      | some (.arr xs) =>
        xs.mapM fun x =>
          match x with
          | .obj ckvs =>
            (match jLookup ckvs "delta" with
             | none => some ""
             | some .null => some ""
             | some (.obj dkvs) => jStringField (jLookup dkvs "content")
             | some _ => none)
          | .null => some ""
          | _ => none
      | some _ => none
    let err ←
      match jLookup kvs "error" with
      | none => some none
      | some .null => some none
      | some (.obj ekvs) =>
        (jStringField (jLookup ekvs "message")).map fun m => some m
      | some _ => none
    some (choices, err)
  | .null => some ([], none)
  | _ => none

/-- `json.Unmarshal` of a `ChatCompletionChunk` (whole input). -/
def unmarshalChunk (s : String) : Option (List String × Option String) :=
  (parseJson s).bind chunkOfJVal

/-- `json.Unmarshal` of a `ChatCompletionResponse` (whole input). -/
def unmarshalResponse (s : String) : Option (List String × Option String) :=
  (parseJson s).bind respOfJVal

/-- The success path of `sendChatCompletionRequest` (`part_006`
lines 163–186): unmarshal the body, surface an in-band error, require a
choice, return the first choice's content.  (The text of Go's JSON decode
errors is modelled by a fixed message.) -/
def decodeChatCompletionResponse (body : String) : Except String String :=
  match unmarshalResponse body with
  | none => .error "failed to parse response"
  | some (choices, err) =>
    match err with
    | some m => .error ("API error: " ++ m)
    | none =>
      match choices with
      | [] => .error "no response from API"
      | c :: _ => .ok c

/-- The body of `sendChatCompletionToOllama` (`part_005` lines 94–131)
after the POST: `json.Decoder.Decode` (trailing data tolerated), then the
same error/choices checks. -/
def decodeOllamaResponseBody (body : String) : Except String String :=
  match (parseJsonPrefix body).bind respOfJVal with
  | none => .error "failed to decode response"
  | some (choices, err) =>
    match err with
    | some m => .error ("API error: " ++ m)
    | none =>
      match choices with
      | [] => .error "no response from API"
      | c :: _ => .ok c

/-- `sendChatCompletionToOllama` (`part_005`): one POST to the
OpenAI-compatible endpoint (the response status is not inspected), then
decode. -/
def sendChatCompletionToOllama (p : Provider)
    (backend : String → Option HttpResp) :
    List String × Except String String :=
  let url := compatURL p
  match backend url with
  | none => ([url], .error "failed to send request")
  | some resp => ([url], decodeOllamaResponseBody resp.body)

/-- `sendChatCompletionRequest` (`part_006` lines 118–187): POST the
OpenAI-compatible endpoint; on transport failure or status 404/≥ 400 fall
back by provider type — the OpenAI fallback re-enters this same function —
otherwise decode the body.  Returns the URL trace and the result, `none`
when the fuel is exhausted inside the OpenAI fallback recursion. -/
def sendChatCompletionRequest (fuel : Nat) (p : Provider)
    (backend : String → Option HttpResp) :
    List String × Option (Except String String) :=
  match fuel with
  | 0 => ([], none)
  | fuel + 1 =>
    let url := compatURL p
    let failed :=
      match backend url with
      | none => true
      | some resp => resp.status == 404 || resp.status ≥ 400
    if failed then
      if p.ptype = "openai" then
        let r := sendChatCompletionRequest fuel p backend
        (url :: r.1, r.2)
      else if p.ptype = "ollama" then
        let r := sendChatCompletionToOllama p backend
        (url :: r.1, some r.2)
      else ([url], some (.error ("unsupported provider type: " ++ p.ptype)))
    else
      match backend url with
      | none => ([url], none)
      | some resp => ([url], some (decodeChatCompletionResponse resp.body))

/-! ### Streaming -/

/-- The lines `bufio.Reader.ReadBytes('\n')` yields to the SSE loop: every
newline-terminated segment; the loop breaks at `io.EOF` without processing
a final unterminated segment. -/
def readerLines (body : String) : List String :=
  (goSplit body '\n').dropLast

/-- Result of a streaming call: the fragments passed to the callback in
order, the full text the call returns, and the error it returns (if any).
The full text accompanies the error, as in Go's
`return fullResponse.String(), err`. -/
structure StreamResult where
  delivered : List String
  result : String
  errorMsg : Option String
deriving Repr, DecidableEq

/-- The SSE read loop of `sendStreamingChatCompletionRequest` (`part_006`
lines 65–112): skip blank lines and lines without the `data: ` prefix, stop
at `[DONE]`, unmarshal each payload, abort on a decode failure or an
in-band error, and deliver/accumulate the first choice's delta content when
it is nonempty.  Returns (delivered fragments, accumulated fragments,
error). -/
def sseLoop : List String → List String × List String × Option String
  | [] => ([], [], none)
  | line :: rest =>
    let lineStr := trimSpace line
    if lineStr = "" then sseLoop rest
    else if goHasPrefix lineStr "data: " then
      let data := goTrimPrefix lineStr "data: "
      if data = "[DONE]" then ([], [], none)
      else
        match unmarshalChunk data with
        | none => ([], [], some "error parsing chunk")
        | some (choices, err) =>
          match err with
          | some m => ([], [], some ("API error: " ++ m))
          | none =>
            match choices with
            | [] => sseLoop rest
            | content :: _ =>
              if content != "" then
                let r := sseLoop rest
                (content :: r.1, content :: r.2.1, r.2.2)
              else sseLoop rest
    else sseLoop rest

/-- Process one streaming response body through the SSE loop. -/
def streamBody (body : String) : StreamResult :=
  let r := sseLoop (readerLines body)
  ⟨r.1, String.join r.2.1, r.2.2⟩

/-- `sendStreamingChatCompletionToOllama` (`part_005` lines 26–92): one
POST to the OpenAI-compatible endpoint with `stream=true` (status not
inspected), then the same SSE loop. -/
def sendStreamingChatCompletionToOllama (p : Provider)
    (backend : String → Option HttpResp) : List String × StreamResult :=
  let url := compatURL p
  match backend url with
  | none => ([url], ⟨[], "", some "failed to send request"⟩)
  | some resp => ([url], streamBody resp.body)

/-- `sendStreamingChatCompletionRequest` (`part_006` lines 16–115): POST
the OpenAI-compatible endpoint; on transport failure or status 404/≥ 400
fall back by provider type (the OpenAI streaming fallback re-enters this
same function); otherwise run the SSE loop on the response body. -/
def sendStreamingChatCompletionRequest (fuel : Nat) (p : Provider)
    (backend : String → Option HttpResp) :
    List String × Option StreamResult :=
  match fuel with
  | 0 => ([], none)
  | fuel + 1 =>
    let url := compatURL p
    let failed :=
      match backend url with
      | none => true
      | some resp => resp.status == 404 || resp.status ≥ 400
    if failed then
      if p.ptype = "openai" then
        let r := sendStreamingChatCompletionRequest fuel p backend
        (url :: r.1, r.2)
      else if p.ptype = "ollama" then
        let r := sendStreamingChatCompletionToOllama p backend
        (url :: r.1, some r.2)
      else
        ([url], some ⟨[], "", some ("unsupported provider type: " ++ p.ptype)⟩)
    else
      match backend url with
      | none => ([url], none)
      | some resp => ([url], some (streamBody resp.body))

/-! ## Filesystem, git and the change-tracking/rollback subsystem

The on-disk state is a finite map from absolute path to byte string
(`FileMap`, an association list; ASCII, so Lean characters stand for
bytes).  Git state is the `HEAD` tree and the index, both as `FileMap`s
over the same absolute paths.  `git reset --hard HEAD` (the only
state-changing git operation the `GitTool` of `internal/tools/git.go`
offers, reachable as operation `"reset"`) sets the index to `HEAD`,
restores every `HEAD`-tracked file in the worktree and drops worktree files
tracked only in the index; untracked files stay.  The `GitTool` has no
`"add"` case: the modification phase's staging call always returns
`unknown git operation: add` and is reported as a warning. -/

/-- On-disk contents: absolute path to byte string. -/
abbrev FileMap := List (String × String)

/-- First-match lookup. -/
def lookupF : FileMap → String → Option String
  | [], _ => none
  | (a, b) :: rest, k => if a = k then some b else lookupF rest k

/-- Write, replacing an existing binding. -/
def setF : FileMap → String → String → FileMap
  | [], k, v => [(k, v)]
  | (a, b) :: rest, k, v =>
    if a = k then (k, v) :: rest else (a, b) :: setF rest k v

/-- `os.Remove`. -/
def eraseF : FileMap → String → FileMap
  | [], _ => []
  | (a, b) :: rest, k => if a = k then eraseF rest k else (a, b) :: eraseF rest k

/-- The bound paths. -/
def keysF (m : FileMap) : List String := m.map Prod.fst

/-- Git state: the `HEAD` tree and the index. -/
structure GitState where
  head : FileMap
  index : FileMap
deriving Repr, DecidableEq

/-- The whole modelled machine state: worktree (plus backup files, which
live under the workspace at `.tama/backups/…`) and git state. -/
structure WsState where
  files : FileMap
  git : GitState
deriving Repr, DecidableEq

/-! ### `FileSystemTool` (`internal/tools/file_tools.go`) -/

/-- `writeFile`: join the caller path to the workspace root and write.
(`os.MkdirAll`/`os.WriteFile` failures are not modelled; `len(content)` is
the byte count, which for the ASCII contents modelled here is the character
count.) -/
def fsWriteFile (ws : String) (files : FileMap) (path content : String) :
    FileMap × String :=
  (setF files (goJoin ws path) content,
    "Successfully wrote " ++ toString content.length ++ " bytes to " ++ path)

/-- `readFile`: join the caller path to the workspace root and read. -/
def fsReadFile (ws : String) (files : FileMap) (path : String) :
    Except String String :=
  match lookupF files (goJoin ws path) with
  | some c => .ok c
  | none => .error "failed to read file"

/-- The timestamped backup directory `createBackup` uses:
`Join(workspacePath, ".tama", "backups")` then `Join(…, timestamp)`.  The
wall-clock timestamp string is a parameter. -/
def backupDirFor (ws ts : String) : String :=
  goJoin (goJoin (goJoin ws ".tama") "backups") ts

/-- `createBackup`: copy the workspace file's bytes to the mirrored path
under the timestamped backup directory and return that backup path. -/
def fsCreateBackup (ws ts : String) (files : FileMap) (path : String) :
    Except String (FileMap × String) :=
  let srcPath := goJoin ws path
  let dstPath := goJoin (backupDirFor ws ts) path
  match lookupF files srcPath with
  | none => .error "failed to read source file"
  | some content => .ok (setF files dstPath content, dstPath)

/-- `restoreBackup`: read the backup path (used as given, not joined) and
write its bytes back to the joined destination. -/
def fsRestoreBackup (ws : String) (files : FileMap) (path backupPath : String) :
    Except String FileMap :=
  match lookupF files backupPath with
  | none => .error "failed to read backup file"
  | some content => .ok (setF files (goJoin ws path) content)

/-! ### `GitTool` (`internal/tools/git.go`) -/

/-- `git reset --hard HEAD`. -/
def gitResetHard (st : WsState) : WsState :=
  let untracked := st.files.filter fun kv =>
    !(keysF st.git.index).contains kv.1 && !(keysF st.git.head).contains kv.1
  { files := untracked ++ st.git.head,
    git := { head := st.git.head, index := st.git.head } }

/-- `git add . && git commit`: stage everything, then commit the index. -/
def gitCommitAll (st : WsState) : WsState :=
  { files := st.files, git := { head := st.files, index := st.files } }

/-- `GitTool.Execute`: `diff` shells out without changing state (its output
is not modelled), `commit` stages and commits, `reset` hard-resets, and any
other operation — including the `add` the modification phase requests — is
an `unknown git operation` error. -/
def gitToolExec (op : String) (st : WsState) : WsState × Except String String :=
  if op = "diff" then (st, .ok "")
  else if op = "commit" then (gitCommitAll st, .ok "")
  else if op = "reset" then (gitResetHard st, .ok "")
  else (st, .error ("unknown git operation: " ++ op))

/-! ### Modification phase handlers -/

/-- Observable steps of a modification phase run. -/
inductive ModEvent where
  | processing (path : String)
  | backupCreated (path dst : String)
  | backupFailed (path : String)
  | fsWrite (path : String)
  | gitAddFailed (path : String)
  | rollbackReset
deriving Repr, DecidableEq

/-- `handleModificationPhase` of `part_004` (lines 1086–1207), per change:
create a backup (the returned backup path is discarded: `_, err :=`), on
failure roll back via `git reset --hard` and abort; read the file, on
failure roll back and abort; generate the modified content (the LLM is the
deterministic parameter `gen`, applied to the current content and the
change description; an LLM transport failure is not modelled); write it;
run the linter (an external check without state effect, not modelled);
stage via the git tool's `add` operation, which the `GitTool` does not
implement, so only a warning is emitted.  No field of any `Change` is ever
assigned. -/
def handleModificationPhase (ws ts : String) (gen : String → String → String) :
    WsState → List Change → WsState × List ModEvent × Except String Unit
  | st, [] => (st, [], .ok ())
  | st, ch :: rest =>
    match fsCreateBackup ws ts st.files ch.filePath with
    | .error _ =>
      (gitResetHard st,
        [.processing ch.filePath, .backupFailed ch.filePath, .rollbackReset],
        .error "backup creation failed")
    | .ok (files1, dst) =>
      let st1 : WsState := { st with files := files1 }
      match fsReadFile ws st1.files ch.filePath with
      | .error _ =>
        (gitResetHard st1,
          [.processing ch.filePath, .backupCreated ch.filePath dst,
            .rollbackReset],
          .error "file read failed")
      | .ok content =>
        let modified := gen content ch.description
        let files2 := (fsWriteFile ws st1.files ch.filePath modified).1
        let st2 : WsState := { st1 with files := files2 }
        let afterAdd := gitToolExec "add" st2
        let evAdd :=
          match afterAdd.2 with
          | .error _ => [ModEvent.gitAddFailed ch.filePath]
          | .ok _ => []
        let r := handleModificationPhase ws ts gen afterAdd.1 rest
        (r.1,
          [.processing ch.filePath, .backupCreated ch.filePath dst,
            .fsWrite ch.filePath] ++ evAdd ++ r.2.1,
          r.2.2)

/-- `handleModificationPhase` of `internal/copilot/core.go`
(lines 868–964), per change: attempt a backup — on failure only a warning
is printed and the change proceeds; on success the backup path is assigned
to `change.Backup`, but `change` is the `range` loop's value copy, so the
assignment never reaches the `Decision`'s `Changes` slice (the function
returns no changes and mutates none).  Then read the current content if the
file exists (empty otherwise), generate, write, `go fmt` for Go files (an
external process without modelled state effect) and attempt the
unimplemented git `add`. -/
def handleModificationPhaseCore (ws ts : String)
    (gen : String → String → String) :
    WsState → List Change → WsState × List ModEvent
  | st, [] => (st, [])
  | st, ch :: rest =>
    let afterBackup :=
      match fsCreateBackup ws ts st.files ch.filePath with
      | .error _ =>
        (st, [ModEvent.processing ch.filePath, ModEvent.backupFailed ch.filePath])
      | .ok (f, dst) =>
        ({ st with files := f },
          [ModEvent.processing ch.filePath, ModEvent.backupCreated ch.filePath dst])
    let st1 := afterBackup.1
    let content :=
      match fsReadFile ws st1.files ch.filePath with
      | .ok c => c
      | .error _ => ""
    let modified := gen content ch.description
    let files2 := (fsWriteFile ws st1.files ch.filePath modified).1
    let st2 : WsState := { st1 with files := files2 }
    let afterAdd := gitToolExec "add" st2
    let evAdd :=
      match afterAdd.2 with
      | .error _ => [ModEvent.gitAddFailed ch.filePath]
      | .ok _ => []
    let r := handleModificationPhaseCore ws ts gen afterAdd.1 rest
    (r.1, afterBackup.2 ++ [.fsWrite ch.filePath] ++ evAdd ++ r.2)

/-! ### `HandleConfirmation` (`part_004` lines 1230–1292,
`internal/copilot/core.go` lines 986–1048 — the two copies behave
identically) -/

/-- The operator's verdict. -/
inductive ConfStatus where
  | accepted
  | rejected
deriving Repr, DecidableEq

/-- The reject path's restore loop: for each change with a populated
backup path, restore it and delete the backup copy; the first failure
returns immediately with `failed to restore <path>: <err>` — the remaining
changes are not attempted.  Filesystem effects performed before the
failure persist. -/
def restoreChangesLoop (ws : String) :
    WsState → List Change → WsState × Option String
  | st, [] => (st, none)
  | st, ch :: rest =>
    if ch.backup != "" then
      match fsRestoreBackup ws st.files ch.filePath ch.backup with
      | .error e => (st, some ("failed to restore " ++ ch.filePath ++ ": " ++ e))
      | .ok f =>
        restoreChangesLoop ws { st with files := eraseF f ch.backup } rest
    else restoreChangesLoop ws st rest

/-- `HandleConfirmation`: lower-case and trim the reply; `yes`/`y` commits
and deletes the backups; `no`/`n` runs the restore loop — aborting on its
first failure — and only after every restore succeeded hard-resets the
working tree; anything else is an error. -/
def handleConfirmation (ws : String) (st : WsState) (confirmation : String)
    (changes : List Change) : WsState × Except String ConfStatus :=
  let reply := goToLower (trimSpace confirmation)
  if reply = "yes" || reply = "y" then
    let st1 := (gitToolExec "commit" st).1
    let st2 := changes.foldl
      (fun s ch => if ch.backup != "" then { s with files := eraseF s.files ch.backup } else s)
      st1
    (st2, .ok .accepted)
  else if reply = "no" || reply = "n" then
    match restoreChangesLoop ws st changes with
    | (st1, some e) => (st1, .error e)
    | (st1, none) => ((gitToolExec "reset" st1).1, .ok .rejected)
  else (st, .error ("invalid confirmation response: " ++ confirmation))

/-! ## Concrete scenarios used by the theorems below -/

/-- A backend whose every endpoint answers HTTP 404 with a plain-text
body. -/
def backend404 : String → Option HttpResp :=
  fun _ => some { status := 404, body := "404 page not found" }

/-- An OpenAI-type provider. -/
def openaiProvider : Provider := { ptype := "openai", baseURL := "http://x" }

/-- An Ollama-type provider. -/
def ollamaProvider : Provider := { ptype := "ollama", baseURL := "http://x" }

/-- A `Change` for `a.go` as the decision parser produces it: backup field
empty. -/
def modChange : Change := { filePath := "a.go", description := "add guard" }

/-- A workspace in which `a.go` carries uncommitted local edits: the
worktree holds `local` while `HEAD` (and the index) hold `old`. -/
def dirtyState : WsState :=
  { files := [("/ws/a.go", "local")],
    git := { head := [("/ws/a.go", "old")], index := [("/ws/a.go", "old")] } }

/-- A workspace in which `a.go` is clean: worktree, `HEAD` and index agree. -/
def cleanState : WsState :=
  { files := [("/ws/a.go", "orig")],
    git := { head := [("/ws/a.go", "orig")], index := [("/ws/a.go", "orig")] } }

/-- The full write-then-reject pipeline of the confirmation claims, at the
fixed workspace root `/ws`, backup timestamp `t1` and the single-change
decision for `a.go`: run the `part_004` modification phase, then
`HandleConfirmation` with the given reply on the same (unmodified) change
list. -/
def modifyThenConfirm (gen : String → String → String) (st : WsState)
    (reply : String) : WsState × Except String ConfStatus :=
  handleConfirmation "/ws"
    (handleModificationPhase "/ws" "t1" gen st [modChange]).1 reply [modChange]

/-- Two changes whose backup fields are populated, as `HandleConfirmation`'s
reject path expects: the first one's backup file will be missing. -/
def twoBackedChanges : List Change :=
  [{ filePath := "a.go", description := "d1",
     backup := "/ws/.tama/backups/t/a.go" },
   { filePath := "b.go", description := "d2",
     backup := "/ws/.tama/backups/t/b.go" }]

/-- The lines the SSE read loop receives for a stream of chunk payloads:
one `data: ` line per payload, in order, then the `[DONE]` terminator. -/
def sseDataLines (payloads : List String) : List String :=
  (payloads.map fun p => "data: " ++ p) ++ ["data: [DONE]"]

/-- A deterministic backend's streaming body for the text `Hello` emitted
as the fragments `Hel`, `lo`. -/
def helloChunksBody : String :=
  "data: \x7b\"choices\":[\x7b\"delta\":\x7b\"content\":\"Hel\"\x7d\x7d]\x7d\n\ndata: \x7b\"choices\":[\x7b\"delta\":\x7b\"content\":\"lo\"\x7d\x7d]\x7d\n\ndata: [DONE]\n"

/-- The same backend's non-streaming body: the full text `Hello`. -/
def helloCompletionBody : String :=
  "\x7b\"choices\":[\x7b\"message\":\x7b\"role\":\"assistant\",\"content\":\"Hello\"\x7d\x7d]\x7d"

/-- A workspace holding modified `a.go` and `b.go`, the backup copy of
`b.go` only (the backup of `a.go` is missing), a `HEAD` with the old
contents and an index on which the new contents are staged. -/
def partialBackupState : WsState :=
  { files := [("/ws/a.go", "newA"), ("/ws/b.go", "newB"),
              ("/ws/.tama/backups/t/b.go", "oldB")],
    git := { head := [("/ws/a.go", "oldA"), ("/ws/b.go", "oldB")],
             index := [("/ws/a.go", "newA"), ("/ws/b.go", "newB")] } }

/-! # Theorems -/

/-! ## C9 — decision parsing of the reference input -/

/-- C9: parsing
`"Phase: modification\nAction: fix bug\nReasoning: because\nContext: a.go, b.go\nChanges: a.go|add guard\n"`
yields a `Decision` with phase `modification`, action `fix bug`, reasoning
`because`, context `["a.go", "b.go"]`, and exactly one `Change` with file
path `a.go` and description `add guard` (and, not claimed but shown for
completeness, an empty tools list); the decision also passes validation. -/
theorem c9_parse_modification_decision :
    parseDecision "Phase: modification\nAction: fix bug\nReasoning: because\nContext: a.go, b.go\nChanges: a.go|add guard\n" =
      { phase := "modification", action := "fix bug", reasoning := "because",
        context := ["a.go", "b.go"], tools := [],
        changes := [{ filePath := "a.go", description := "add guard" }] } ∧
    getInitialDecision "Phase: modification\nAction: fix bug\nReasoning: because\nContext: a.go, b.go\nChanges: a.go|add guard\n" =
      .ok { phase := "modification", action := "fix bug", reasoning := "because",
            context := ["a.go", "b.go"], tools := [],
            changes := [{ filePath := "a.go", description := "add guard" }] } := by
  exact ⟨rfl, rfl⟩

/-! ## C6 — system messages in the conversation store -/

/-- C6 counterexample: `Client.AddSystemMessage` appends without purging.
Two consecutive calls (contents `"a"` then `"b"`) on an empty conversation
leave two system-role entries, not the single entry carrying the last
call's content that the claim asserts. -/
theorem c6_counterexample_addSystemMessage_appends :
    (addSystemMessage (addSystemMessage [] "a") "b").filter
        (fun m => m.role == "system") ≠
      [{ role := "system", content := "b" }] := by
  decide

/-- After `clearSystemMessages`, no system-role entry remains. -/
theorem clearSystemMessages_no_system (conv : List Message) :
    (clearSystemMessages conv).filter (fun m => m.role == "system") = [] := by
  unfold clearSystemMessages
  rw [List.filter_filter]
  have hp : ∀ m : Message,
      ((m.role == "system") && (m.role != "system")) = false := by
    intro m
    cases h : (m.role == "system") <;> simp [bne, h]
  induction conv with
  | nil => rfl
  | cons m rest ih => rw [List.filter_cons, hp m, if_neg (by simp), ih]

/-- Filtering a suffix of a filter-empty list is empty. -/
theorem filter_drop_nil {α : Type} (p : α → Bool) (l : List α) (n : Nat)
    (h : l.filter p = []) : (l.drop n).filter p = [] := by
  have hs := (List.drop_sublist n l).filter p
  rw [h] at hs
  exact List.sublist_nil.mp hs

/-- C6 corrected: the purge the claim describes lives one layer up, in
`machine.ChatHandler.AddSystemMessage`, which clears all system messages
and then appends the new one (which the 10-entry cap, keeping the newest
suffix, never evicts): after any such call — hence after any sequence of
them — the conversation holds exactly one system-role entry, carrying that
call's content.  `llm.Client.AddSystemMessage` itself appends without
purging. -/
theorem c6_chatHandler_add_system_unique (conv : List Message)
    (content : String) :
    (chatHandlerAddSystemMessage conv content).filter
        (fun m => m.role == "system") =
      [{ role := "system", content := content }] := by
  have h0 := clearSystemMessages_no_system conv
  unfold chatHandlerAddSystemMessage addSystemMessage capConversation
  set ns := clearSystemMessages conv with hns
  set sys : Message := { role := "system", content := content } with hsys
  have hfsys : List.filter (fun m => m.role == "system") [sys] = [sys] := by
    simp [hsys]
  by_cases hl : (ns ++ [sys]).length > 10
  · rw [if_pos hl]
    rw [List.drop_append_eq_append_drop]
    have hk : (ns ++ [sys]).length - 10 - ns.length = 0 := by
      simp only [List.length_append, List.length_singleton]
      omega
    rw [hk, List.drop_zero, List.filter_append,
      filter_drop_nil _ _ _ h0, hfsys, List.nil_append]
  · rw [if_neg hl]
    rw [List.filter_append, h0, hfsys, List.nil_append]

/-! ## C7 — embedded tool-call JSON -/

/-- C7 counterexample: a chunk that contains exactly
`{"tool":"git","args":{"operation":"diff"}}` but surrounded by
other text does not resolve to a `ToolCall` — `json.Unmarshal` rejects
input with data around the JSON value — and the chunk therefore is emitted
as display text by the streaming callback. -/
theorem c7_counterexample_surrounded_tool_call_displayed :
    parseToolCall registryNames
        "I will now run \x7b\"tool\":\"git\",\"args\":\x7b\"operation\":\"diff\"\x7d\x7d for you" =
      none ∧
    streamCallback registryNames
        "I will now run \x7b\"tool\":\"git\",\"args\":\x7b\"operation\":\"diff\"\x7d\x7d for you" =
      .display
        "I will now run \x7b\"tool\":\"git\",\"args\":\x7b\"operation\":\"diff\"\x7d\x7d for you" := by
  exact ⟨rfl, rfl⟩

/-- C7 corrected: only a chunk that is exactly the JSON object (up to
surrounding JSON whitespace) resolves: it parses to a `ToolCall` bound to
the registered `git` tool with argument `operation = diff` and is executed
instead of being displayed. -/
theorem c7_exact_tool_call_parses :
    parseToolCall registryNames "\x7b\"tool\":\"git\",\"args\":\x7b\"operation\":\"diff\"\x7d\x7d" =
      some ⟨"git", [("operation", .str "diff")]⟩ ∧
    parseToolCall registryNames "  \x7b\"tool\":\"git\",\"args\":\x7b\"operation\":\"diff\"\x7d\x7d " =
      some ⟨"git", [("operation", .str "diff")]⟩ ∧
    "git" ∈ registryNames ∧
    streamCallback registryNames
        "\x7b\"tool\":\"git\",\"args\":\x7b\"operation\":\"diff\"\x7d\x7d" =
      .toolResult ⟨"git", [("operation", .str "diff")]⟩ ∧
    jLookup [("operation", JVal.str "diff")] "operation" = some (.str "diff") := by
  exact ⟨rfl, rfl, by decide, rfl, rfl⟩

/-! ## C10 — path resolution in the filesystem tool -/

/-- C10 counterexample to the wording "no normalization": the resolution is
`filepath.Join`, which lexically cleans the combined path, so the inner
`sub/..` is folded away rather than kept verbatim. -/
theorem c10_counterexample_join_normalizes :
    goJoin "/ws" "sub/../other.txt" = "/ws/other.txt" ∧
      goJoin "/ws" "sub/../other.txt" ≠ "/ws/sub/../other.txt" := by
  constructor
  · rfl
  · decide

/-- C10 corrected: every `FileSystemTool` operation resolves the
caller-supplied path by `filepath.Join` with the workspace root — a purely
lexical combination with no containment check — so a path argument
containing `..` reaches files outside the workspace root: with root `/ws`,
writing `../outside.txt` writes `/outside.txt`, reading it reads
`/outside.txt`, and backing up `../../etc/passwd` reads `/etc/passwd`;
none of these resolved paths lies under `/ws`. -/
theorem c10_traversal_escape :
    goContains "../outside.txt" ".." ∧
    goJoin "/ws" "../outside.txt" = "/outside.txt" ∧
    (fsWriteFile "/ws" [] "../outside.txt" "x").1 = [("/outside.txt", "x")] ∧
    fsReadFile "/ws" [("/outside.txt", "secret")] "../outside.txt" =
      .ok "secret" ∧
    fsCreateBackup "/ws" "t" [("/etc/passwd", "pw")] "../../etc/passwd" =
      .ok ([("/etc/passwd", "pw"), ("/ws/.tama/etc/passwd", "pw")],
        "/ws/.tama/etc/passwd") ∧
    (goHasPrefix "/outside.txt" "/ws/" = false ∧ "/outside.txt" ≠ "/ws") ∧
    (goHasPrefix "/etc/passwd" "/ws/" = false ∧ "/etc/passwd" ≠ "/ws") := by
  refine ⟨by decide, rfl, rfl, rfl, rfl, by decide, by decide⟩

/-! ## C4 — the 404 fallback cascade -/

/-- C4 counterexample: for an OpenAI-type provider whose endpoint
persistently answers 404, the fallback
(`sendChatCompletionToOpenAI`) re-enters `sendChatCompletionRequest`
itself, so the adapter keeps re-POSTing the same OpenAI-compatible URL: at
recursion budget 5 it has made 5 calls and returned nothing — not "exactly
one subsequent call to the provider-native endpoint before an error is
returned". -/
theorem c4_counterexample_openai_fallback_loops :
    (sendChatCompletionRequest 5 openaiProvider backend404).1.length = 5 ∧
    (sendChatCompletionRequest 5 openaiProvider backend404).2 = none ∧
    ¬ (((sendChatCompletionRequest 5 openaiProvider backend404).1.drop 1).length = 1 ∧
        ∃ e, (sendChatCompletionRequest 5 openaiProvider backend404).2 =
          some (.error e)) := by
  refine ⟨rfl, rfl, ?_⟩
  rintro ⟨-, e, he⟩
  have hnone : (sendChatCompletionRequest 5 openaiProvider backend404).2 = none := rfl
  rw [hnone] at he
  exact Option.noConfusion he

/-- C4 corrected: the behaviour splits by provider type.  For an
Ollama-type provider, a 404 on the OpenAI-compatible endpoint causes
exactly one subsequent call by the provider-native fallback function
(which itself POSTs the `/v1/chat/completions` path once, without checking
the status) before an error reaches the caller.  For an OpenAI-type
provider the fallback re-invokes the same request function: under a
persistent 404 every unit of recursion budget produces one more call to
the same URL and no result is ever returned. -/
theorem c4_fallback_call_counts :
    (∀ fuel : Nat,
      sendChatCompletionRequest (fuel + 1) ollamaProvider backend404 =
        ([compatURL ollamaProvider, compatURL ollamaProvider],
          some (.error "failed to decode response"))) ∧
    (∀ fuel : Nat,
      (sendChatCompletionRequest fuel openaiProvider backend404).1 =
          List.replicate fuel (compatURL openaiProvider) ∧
        (sendChatCompletionRequest fuel openaiProvider backend404).2 = none) := by
  constructor
  · intro fuel
    rfl
  · intro fuel
    induction fuel with
    | zero => exact ⟨rfl, rfl⟩
    | succ n ih =>
      have hstep :
          sendChatCompletionRequest (n + 1) openaiProvider backend404 =
            (compatURL openaiProvider ::
              (sendChatCompletionRequest n openaiProvider backend404).1,
              (sendChatCompletionRequest n openaiProvider backend404).2) := rfl
      rw [hstep]
      exact ⟨by rw [ih.1, List.replicate_succ], ih.2⟩

/-! ## C1 — reject must restore the pre-modification snapshot -/

/-- C1 counterexample: let `a.go` carry uncommitted local edits (`local` in
the worktree, `old` at `HEAD`).  The modification phase snapshots `local`
into the backup copy and writes `new`; the operator rejects.  Because the
backup path never reaches the `Change`'s backup field, the restore loop
does nothing, and `git reset --hard HEAD` then sets `a.go` to `old` — not
to its pre-modification snapshot `local`. -/
theorem c1_counterexample_reject_dirty_file :
    lookupF dirtyState.files "/ws/a.go" = some "local" ∧
    lookupF (handleModificationPhase "/ws" "t1" (fun _ _ => "new") dirtyState
        [modChange]).1.files "/ws/a.go" = some "new" ∧
    lookupF (handleModificationPhase "/ws" "t1" (fun _ _ => "new") dirtyState
        [modChange]).1.files "/ws/.tama/backups/t1/a.go" = some "local" ∧
    (modifyThenConfirm (fun _ _ => "new") dirtyState "no").2 = .ok .rejected ∧
    lookupF (modifyThenConfirm (fun _ _ => "new") dirtyState "no").1.files
        "/ws/a.go" = some "old" ∧
    lookupF (modifyThenConfirm (fun _ _ => "new") dirtyState "no").1.files
        "/ws/a.go" ≠ some "local" := by
  exact ⟨rfl, rfl, rfl, rfl, rfl, by decide⟩

/-! ## C2 — backup field population before writes -/

/-- C2: the modification phase writes `a.go` although the `Change`'s backup
field is never populated.  In the `core.go` handler the backup path is
assigned to the `range` loop's value copy and lost; in the `part_004`
handler it is discarded outright.  Evaluating both handlers at the failing
input (a clean workspace, one proposed change for `a.go`): the write to
`a.go` happens, every `Change` the confirmation step later receives still
has an empty backup field, and the reject-path restore loop consequently
restores nothing. -/
theorem c2_write_with_unpopulated_backup_field :
    ModEvent.fsWrite "a.go" ∈
      (handleModificationPhaseCore "/ws" "t1" (fun _ _ => "new") cleanState
        [modChange]).2 ∧
    ModEvent.fsWrite "a.go" ∈
      (handleModificationPhase "/ws" "t1" (fun _ _ => "new") cleanState
        [modChange]).2.1 ∧
    (∀ ch ∈ [modChange], ch.backup = "") ∧
    restoreChangesLoop "/ws"
        (handleModificationPhaseCore "/ws" "t1" (fun _ _ => "new") cleanState
          [modChange]).1 [modChange] =
      ((handleModificationPhaseCore "/ws" "t1" (fun _ _ => "new") cleanState
          [modChange]).1, none) := by
  refine ⟨by decide, by decide, by decide, rfl⟩

/-! ## C8 — reject-path restore is fail-fast, not best-effort -/

/-- C8 counterexample: two changes with populated backup paths; the first
backup file is missing.  `HandleConfirmation`'s reject path returns on
that first restore failure: the second change is left unrestored (its
backup copy still holding the old bytes), and the hard reset never runs
(the index still differs from `HEAD`). -/
theorem c8_counterexample_restore_fail_fast :
    (handleConfirmation "/ws" partialBackupState "no" twoBackedChanges).2 =
      .error "failed to restore a.go: failed to read backup file" ∧
    lookupF (handleConfirmation "/ws" partialBackupState "no"
        twoBackedChanges).1.files "/ws/b.go" = some "newB" ∧
    lookupF partialBackupState.files "/ws/.tama/backups/t/b.go" =
      some "oldB" ∧
    (handleConfirmation "/ws" partialBackupState "no"
        twoBackedChanges).1.git.index ≠
      (handleConfirmation "/ws" partialBackupState "no"
        twoBackedChanges).1.git.head := by
  exact ⟨rfl, rfl, rfl, by decide⟩

/-! ## C5 — validation failures abort before any phase handler -/

/-- The line loop never makes the phase invalid: it overwrites the phase
only with a value `isValidPhase` accepts. -/
theorem applyDecisionLine_valid (d : Decision) (l : String)
    (h : isValidPhase d.phase = true) :
    isValidPhase (applyDecisionLine d l).phase = true := by
  simp only [applyDecisionLine]
  repeat' first
    | exact h
    | assumption
    | split

/-- `parseDecision` always yields a valid phase: the default is
`analysis` and every overwrite is validated. -/
theorem parseDecision_phase_valid (resp : String) :
    isValidPhase (parseDecision resp).phase = true := by
  unfold parseDecision
  have h0 : isValidPhase (Decision.mk "analysis" "" "" [] [] []).phase = true := by
    decide
  generalize Decision.mk "analysis" "" "" [] [] [] = d0 at h0 ⊢
  induction goSplit resp '\n' generalizing d0 with
  | nil => exact h0
  | cons l rest ih =>
    exact ih (applyDecisionLine d0 l) (applyDecisionLine_valid d0 l h0)

/-- C5: if after parsing the model's response the decision's action or
reasoning is empty, `validateDecision` rejects it, `getInitialDecision`
fails, and the `ProcessPrompt` worker publishes a single error message and
stops: no phase handler runs (and hence no phase side effect occurs). -/
theorem c5_validation_aborts_before_handlers (resp : String)
    (h : (parseDecision resp).action = "" ∨ (parseDecision resp).reasoning = "") :
    (∃ e, getInitialDecision resp = .error ("invalid decision: " ++ e) ∧
      processPromptWorker resp =
        [.errorMsg ("Error analyzing prompt: " ++ ("invalid decision: " ++ e))]) ∧
    ∀ p, WorkerEvent.handlerRun p ∉ processPromptWorker resp := by
  have hv := parseDecision_phase_valid resp
  have hphase : ¬ (parseDecision resp).phase = "" := by
    intro h0
    rw [h0] at hv
    exact absurd hv (by decide)
  have herr : ∃ e, validateDecision (parseDecision resp) = .error e := by
    unfold validateDecision
    rw [if_neg hphase]
    rcases h with ha | hr
    · rw [if_pos ha]
      exact ⟨_, rfl⟩
    · by_cases ha : (parseDecision resp).action = ""
      · rw [if_pos ha]
        exact ⟨_, rfl⟩
      · rw [if_neg ha, if_pos hr]
        exact ⟨_, rfl⟩
  obtain ⟨e, he⟩ := herr
  have hg : getInitialDecision resp = .error ("invalid decision: " ++ e) := by
    simp only [getInitialDecision]
    rw [he]
  have hw : processPromptWorker resp =
      [.errorMsg ("Error analyzing prompt: " ++ ("invalid decision: " ++ e))] := by
    unfold processPromptWorker
    rw [hg]
  refine ⟨⟨e, hg, hw⟩, ?_⟩
  intro p
  rw [hw]
  simp

/-! ### File-map lemmas -/

/-- Lookup after a write. -/
theorem lookupF_setF (m : FileMap) (k v k' : String) :
    lookupF (setF m k v) k' = if k' = k then some v else lookupF m k' := by
  induction m with
  | nil =>
    by_cases h : k' = k
    · subst h
      simp [setF, lookupF]
    · have h2 : ¬ k = k' := fun hh => h hh.symm
      simp [setF, lookupF, h, h2]
  | cons kv rest ih =>
    obtain ⟨a, b⟩ := kv
    by_cases hak : a = k
    · subst hak
      by_cases h : k' = a
      · subst h
        simp [setF, lookupF]
      · have h2 : ¬ a = k' := fun hh => h hh.symm
        simp [setF, lookupF, h, h2]
    · by_cases h : a = k'
      · have hkk : ¬ k' = k := fun hh => hak (h.trans hh)
        subst h
        simp [setF, lookupF, hak, hkk]
      · by_cases hkk : k' = k
        · subst hkk
          simp [setF, lookupF, hak, h, ih]
        · simp [setF, lookupF, hak, h, hkk, ih]

/-- A successful lookup puts the key among the keys. -/
theorem keysF_contains_of_lookup (m : FileMap) (k v : String)
    (h : lookupF m k = some v) : (keysF m).contains k = true := by
  induction m with
  | nil => exact absurd h (by simp [lookupF])
  | cons kv rest ih =>
    rw [show kv = (kv.1, kv.2) from rfl] at h
    simp only [lookupF] at h
    by_cases hk : kv.1 = k
    · simp only [keysF, List.map_cons, List.contains_cons]
      rw [hk]
      simp
    · rw [if_neg hk] at h
      have h2 := ih h
      simp only [keysF] at h2
      simp only [keysF, List.map_cons, List.contains_cons, h2]
      simp

/-- Lookup skips a prefix in which the key is absent. -/
theorem lookupF_append_left_none (a b : FileMap) (k : String)
    (h : lookupF a k = none) : lookupF (a ++ b) k = lookupF b k := by
  induction a with
  | nil => rfl
  | cons kv rest ih =>
    rw [show kv = (kv.1, kv.2) from rfl] at h ⊢
    by_cases hk : kv.1 = k
    · simp only [lookupF, if_pos hk] at h
      exact absurd h (by simp)
    · simp only [List.cons_append, lookupF, if_neg hk] at h ⊢
      exact ih h

/-- Lookup misses a filtered map whose predicate rejects every binding of
the key. -/
theorem lookupF_filter_none (m : FileMap) (p : String × String → Bool)
    (k : String) (h : ∀ kv : String × String, kv.1 = k → p kv = false) :
    lookupF (m.filter p) k = none := by
  induction m with
  | nil => rfl
  | cons kv rest ih =>
    by_cases hk : kv.1 = k
    · rw [List.filter_cons, h kv hk]
      simpa using ih
    · rw [List.filter_cons]
      by_cases hp : p kv = true
      · rw [if_pos (by simp [hp])]
        rw [show kv = (kv.1, kv.2) from rfl]
        simp only [lookupF, if_neg hk]
        exact ih
      · rw [if_neg (by simpa using hp)]
        exact ih

/-- After `git reset --hard HEAD`, a `HEAD`-tracked file's worktree bytes
are `HEAD`'s, and index and `HEAD` agree. -/
theorem gitResetHard_tracked (st : WsState) (k v : String)
    (h : lookupF st.git.head k = some v) :
    lookupF (gitResetHard st).files k = some v ∧
      (gitResetHard st).git.index = st.git.head ∧
      (gitResetHard st).git.head = st.git.head := by
  refine ⟨?_, rfl, rfl⟩
  unfold gitResetHard
  have hk := keysF_contains_of_lookup st.git.head k v h
  have hnone : lookupF (st.files.filter fun kv =>
      !(keysF st.git.index).contains kv.1 &&
        !(keysF st.git.head).contains kv.1) k = none := by
    apply lookupF_filter_none
    intro kv hkv
    rw [hkv, hk]
    simp
  rw [lookupF_append_left_none _ _ _ hnone]
  exact h

/-- Evaluation of the `part_004` modification phase on the single-change
decision for `a.go`, over an arbitrary workspace in which `a.go` exists
with bytes `snap`: the backup copy of `snap` is created, the generated
content is written, staging fails (unknown git operation) as a warning,
and the phase succeeds. -/
theorem handleModificationPhase_single (files head index : FileMap)
    (gen : String → String → String) (snap : String)
    (hsnap : lookupF files "/ws/a.go" = some snap) :
    handleModificationPhase "/ws" "t1" gen ⟨files, ⟨head, index⟩⟩ [modChange] =
      (⟨setF (setF files "/ws/.tama/backups/t1/a.go" snap) "/ws/a.go"
          (gen snap "add guard"), ⟨head, index⟩⟩,
        [.processing "a.go",
         .backupCreated "a.go" "/ws/.tama/backups/t1/a.go",
         .fsWrite "a.go", .gitAddFailed "a.go"], .ok ()) := by
  have hback : fsCreateBackup "/ws" "t1" files "a.go" =
      .ok (setF files "/ws/.tama/backups/t1/a.go" snap,
        "/ws/.tama/backups/t1/a.go") := by
    simp only [fsCreateBackup]
    rw [show goJoin "/ws" "a.go" = "/ws/a.go" from rfl,
      show goJoin (backupDirFor "/ws" "t1") "a.go" =
        "/ws/.tama/backups/t1/a.go" from rfl, hsnap]
  have hread : fsReadFile "/ws"
      (setF files "/ws/.tama/backups/t1/a.go" snap) "a.go" = .ok snap := by
    simp only [fsReadFile]
    rw [show goJoin "/ws" "a.go" = "/ws/a.go" from rfl, lookupF_setF,
      if_neg (by decide : ¬ ("/ws/a.go" : String) = "/ws/.tama/backups/t1/a.go"),
      hsnap]
  simp only [handleModificationPhase, modChange, hback, hread, fsWriteFile,
    gitToolExec, show goJoin "/ws" "a.go" = "/ws/a.go" from rfl]
  simp

/-- C1 corrected: after a modification-phase write to `a.go` followed by a
reject, `a.go`'s bytes equal the `HEAD` (last committed) content, not in
general the pre-modification snapshot — the snapshot's backup path never
reaches the `Change`, so the restore loop is a no-op and the outcome is
produced by `git reset --hard HEAD` alone.  No staged or unstaged diff
remains for the file (index and `HEAD` agree, and the worktree bytes equal
`HEAD`'s).  The bytes equal the pre-modification snapshot exactly when the
file was clean (snapshot = `HEAD` content) when the backup was taken. -/
theorem c1_reject_restores_head (files head index : FileMap)
    (gen : String → String → String) (snap hc : String)
    (hsnap : lookupF files "/ws/a.go" = some snap)
    (hhead : lookupF head "/ws/a.go" = some hc) :
    (modifyThenConfirm gen ⟨files, ⟨head, index⟩⟩ "no").2 = .ok .rejected ∧
    lookupF (modifyThenConfirm gen ⟨files, ⟨head, index⟩⟩ "no").1.files
        "/ws/a.go" = some hc ∧
    (modifyThenConfirm gen ⟨files, ⟨head, index⟩⟩ "no").1.git.index =
      (modifyThenConfirm gen ⟨files, ⟨head, index⟩⟩ "no").1.git.head ∧
    (modifyThenConfirm gen ⟨files, ⟨head, index⟩⟩ "no").1.git.head = head ∧
    (snap = hc →
      lookupF (modifyThenConfirm gen ⟨files, ⟨head, index⟩⟩ "no").1.files
        "/ws/a.go" = some snap) := by
  have hmod := handleModificationPhase_single files head index gen snap hsnap
  have hconf : modifyThenConfirm gen ⟨files, ⟨head, index⟩⟩ "no" =
      (gitResetHard
        ⟨setF (setF files "/ws/.tama/backups/t1/a.go" snap) "/ws/a.go"
          (gen snap "add guard"), ⟨head, index⟩⟩, .ok .rejected) := by
    unfold modifyThenConfirm
    rw [hmod]
    simp only [handleConfirmation, restoreChangesLoop, modChange, gitToolExec]
    rw [show goToLower (trimSpace "no") = "no" from rfl]
    simp
  rw [hconf]
  have htr := gitResetHard_tracked
    ⟨setF (setF files "/ws/.tama/backups/t1/a.go" snap) "/ws/a.go"
      (gen snap "add guard"), ⟨head, index⟩⟩ "/ws/a.go" hc hhead
  refine ⟨rfl, htr.1, ?_, ?_, fun heq => ?_⟩
  · rw [htr.2.1, htr.2.2]
  · exact htr.2.2
  · rw [htr.1, heq]

/-- Witness for C1's corrected statement: the clean workspace, with
`gen` constantly `"new"`; snapshot and `HEAD` content are both `orig`. -/
theorem c1_reject_restores_head_witness :
    (lookupF [("/ws/a.go", "orig")] "/ws/a.go" = some "orig" ∧
      lookupF [("/ws/a.go", "orig")] "/ws/a.go" = some "orig") ∧
    ((modifyThenConfirm (fun _ _ => "new")
        ⟨[("/ws/a.go", "orig")], ⟨[("/ws/a.go", "orig")], [("/ws/a.go", "orig")]⟩⟩
        "no").2 = .ok .rejected ∧
      lookupF (modifyThenConfirm (fun _ _ => "new")
        ⟨[("/ws/a.go", "orig")], ⟨[("/ws/a.go", "orig")], [("/ws/a.go", "orig")]⟩⟩
        "no").1.files "/ws/a.go" = some "orig" ∧
      (modifyThenConfirm (fun _ _ => "new")
        ⟨[("/ws/a.go", "orig")], ⟨[("/ws/a.go", "orig")], [("/ws/a.go", "orig")]⟩⟩
        "no").1.git.index =
        (modifyThenConfirm (fun _ _ => "new")
        ⟨[("/ws/a.go", "orig")], ⟨[("/ws/a.go", "orig")], [("/ws/a.go", "orig")]⟩⟩
        "no").1.git.head ∧
      (modifyThenConfirm (fun _ _ => "new")
        ⟨[("/ws/a.go", "orig")], ⟨[("/ws/a.go", "orig")], [("/ws/a.go", "orig")]⟩⟩
        "no").1.git.head = [("/ws/a.go", "orig")] ∧
      ("orig" = "orig" →
        lookupF (modifyThenConfirm (fun _ _ => "new")
          ⟨[("/ws/a.go", "orig")], ⟨[("/ws/a.go", "orig")], [("/ws/a.go", "orig")]⟩⟩
          "no").1.files "/ws/a.go" = some "orig")) :=
  ⟨⟨by decide, by decide⟩,
    c1_reject_restores_head [("/ws/a.go", "orig")] [("/ws/a.go", "orig")]
      [("/ws/a.go", "orig")] (fun _ _ => "new") "orig" "orig"
      (by decide) (by decide)⟩

/-- C8 corrected: the reject path's restores are sequential but fail-fast,
not best-effort: the first restore failure makes `HandleConfirmation`
return that failure at once — the remaining changes are not attempted and
the hard reset does not run — while the hard reset of the working tree
follows only when every restore (over the changes with a populated backup
path) succeeded. -/
theorem c8_restore_fail_fast :
    (∀ (st : WsState) (ca cb : Change) (rest : List Change),
      ca.backup ≠ "" →
      lookupF st.files ca.backup = none →
      handleConfirmation "/ws" st "no" (ca :: cb :: rest) =
        (st, .error ("failed to restore " ++ ca.filePath ++
          ": failed to read backup file"))) ∧
    (∀ (st stR : WsState) (changes : List Change),
      restoreChangesLoop "/ws" st changes = (stR, none) →
      handleConfirmation "/ws" st "no" changes =
        (gitResetHard stR, .ok .rejected)) := by
  constructor
  · intro st ca cb rest h1 h2
    have hb : (ca.backup != "") = true := by
      simpa using h1
    have hrest : restoreChangesLoop "/ws" st (ca :: cb :: rest) =
        (st, some ("failed to restore " ++ ca.filePath ++
          ": failed to read backup file")) := by
      simp only [restoreChangesLoop, fsRestoreBackup, h2, hb]
      simp
      rw [String.append_assoc,
        show (": " ++ "failed to read backup file" : String) =
          ": failed to read backup file" from rfl]
    simp only [handleConfirmation]
    rw [show goToLower (trimSpace "no") = "no" from rfl]
    simp [hrest]
  · intro st stR changes h
    simp only [handleConfirmation]
    rw [show goToLower (trimSpace "no") = "no" from rfl]
    simp [h, gitToolExec]

/-- Witness for C8's corrected statement: the fail-fast half at the
two-change scenario with the first backup file missing, and the
reset-after-success half at the clean workspace with no changes. -/
theorem c8_restore_fail_fast_witness :
    ((({ filePath := "a.go", description := "d1",
          backup := "/ws/.tama/backups/t/a.go" } : Change).backup ≠ "" ∧
        lookupF partialBackupState.files "/ws/.tama/backups/t/a.go" = none) ∧
      handleConfirmation "/ws" partialBackupState "no" twoBackedChanges =
        (partialBackupState,
          .error "failed to restore a.go: failed to read backup file")) ∧
    (restoreChangesLoop "/ws" cleanState [] = (cleanState, none) ∧
      handleConfirmation "/ws" cleanState "no" [] =
        (gitResetHard cleanState, .ok .rejected)) := by
  refine ⟨⟨⟨by decide, by decide⟩, ?_⟩, ⟨rfl, ?_⟩⟩
  · exact c8_restore_fail_fast.1 partialBackupState
      { filePath := "a.go", description := "d1",
        backup := "/ws/.tama/backups/t/a.go" }
      { filePath := "b.go", description := "d2",
        backup := "/ws/.tama/backups/t/b.go" } []
      (by decide) (by decide)
  · exact c8_restore_fail_fast.2 cleanState cleanState [] rfl

/-! ### String lemmas for the streaming claim -/

/-- `foldl` of append with an arbitrary seed. -/
theorem foldl_append_init (l : List String) :
    ∀ a : String, l.foldl (· ++ ·) a = a ++ l.foldl (· ++ ·) "" := by
  induction l with
  | nil =>
    intro a
    simp only [List.foldl]
    rw [String.append_empty]
  | cons x xs ih =>
    intro a
    simp only [List.foldl]
    rw [ih (a ++ x), ih ("" ++ x), String.empty_append, String.append_assoc]

/-- `String.join` unfolds over `cons`. -/
theorem string_join_cons (a : String) (l : List String) :
    String.join (a :: l) = a ++ String.join l := by
  simp only [String.join, List.foldl]
  rw [foldl_append_init, String.empty_append]

/-- Dropping empty strings does not change a concatenation. -/
theorem string_join_filter_ne_empty (l : List String) :
    String.join (l.filter fun f => f != "") = String.join l := by
  induction l with
  | nil => rfl
  | cons x xs ih =>
    by_cases hx : x = ""
    · subst hx
      rw [List.filter_cons, if_neg (by simp), ih, string_join_cons,
        String.empty_append]
    · rw [List.filter_cons, if_pos (by simpa using hx), string_join_cons,
        string_join_cons, ih]

/-- A string is a Go prefix of itself followed by anything. -/
theorem goHasPrefix_append (pre s : String) :
    goHasPrefix (pre ++ s) pre = true := by
  unfold goHasPrefix
  rw [String.data_append]
  exact List.isPrefixOf_iff_prefix.mpr (List.prefix_append _ _)

/-- Trimming a prefix off itself-plus-rest leaves the rest. -/
theorem goTrimPrefix_append (pre s : String) :
    goTrimPrefix (pre ++ s) pre = s := by
  unfold goTrimPrefix
  rw [if_pos (goHasPrefix_append pre s), String.data_append, List.drop_left]

/-- The SSE loop on a stream of payload lines: given that each payload line
survives `TrimSpace` unchanged, is not the terminator, and unmarshals to a
single-choice chunk carrying its fragment and no error, the loop delivers
exactly the nonempty fragments, in order, each once, and accumulates the
same list, with no error. -/
theorem sseLoop_delivers (items : List (String × String))
    (h : ∀ pf ∈ items,
      trimSpace ("data: " ++ pf.1) = "data: " ++ pf.1 ∧
      pf.1 ≠ "[DONE]" ∧
      unmarshalChunk pf.1 = some ([pf.2], none)) :
    sseLoop (sseDataLines (items.map Prod.fst)) =
      ((items.map Prod.snd).filter (fun f => f != ""),
        (items.map Prod.snd).filter (fun f => f != ""), none) := by
  induction items with
  | nil => rfl
  | cons pf rest ih =>
    obtain ⟨hp, hd, hu⟩ := h pf (by simp)
    have hrest := ih fun x hx => h x (by simp [hx])
    have hne : ¬ ("data: " ++ pf.1 : String) = "" := by
      intro hh
      have hdata := congrArg String.data hh
      rw [String.data_append, show ("" : String).data = [] from rfl] at hdata
      rcases List.append_eq_nil.mp hdata with ⟨h1, -⟩
      exact absurd h1 (by decide)
    have hpre := goHasPrefix_append "data: " pf.1
    have htrimp := goTrimPrefix_append "data: " pf.1
    show sseLoop (("data: " ++ pf.1) :: sseDataLines (rest.map Prod.fst)) = _
    simp only [sseLoop, hp, if_neg hne, hpre, if_true, htrimp, if_neg hd, hu,
      List.map_cons]
    by_cases hf : (pf.2 != "") = true
    · simp only [hf, if_true, hrest, List.filter_cons]
    · simp only [hf, if_false, hrest, List.filter_cons,
        Bool.not_eq_true] at *
      simp [hf]

/-- C3: for every streamed completion — lines carrying any sequence of
chunk payloads, each unmarshalling to one fragment — each nonempty text
fragment is delivered to the callback exactly once, in arrival order
(empty fragments carry no text and are skipped), the accumulated result is
built from the same deliveries, and the concatenation of the delivered
fragments equals the concatenation of all emitted fragments, i.e. the
full-text result the call returns.  A non-streaming body whose decoded
content is that same text returns it exactly.  On identical deterministic
backend output (`Hello`, streamed as `Hel`, `lo`), the streaming call and
the non-streaming call return textually equal results end to end. -/
theorem c3_streaming_delivery_and_equivalence :
    (∀ items : List (String × String),
      (∀ pf ∈ items,
        trimSpace ("data: " ++ pf.1) = "data: " ++ pf.1 ∧
        pf.1 ≠ "[DONE]" ∧
        unmarshalChunk pf.1 = some ([pf.2], none)) →
      sseLoop (sseDataLines (items.map Prod.fst)) =
        ((items.map Prod.snd).filter (fun f => f != ""),
          (items.map Prod.snd).filter (fun f => f != ""), none) ∧
      String.join ((items.map Prod.snd).filter (fun f => f != "")) =
        String.join (items.map Prod.snd)) ∧
    (∀ (body t : String), unmarshalResponse body = some ([t], none) →
      decodeChatCompletionResponse body = .ok t) ∧
    (sendStreamingChatCompletionRequest 1 ollamaProvider
        (fun _ => some ⟨200, helloChunksBody⟩) =
      (["http://x/v1/chat/completions"],
        some ⟨["Hel", "lo"], "Hello", none⟩) ∧
      sendChatCompletionRequest 1 ollamaProvider
        (fun _ => some ⟨200, helloCompletionBody⟩) =
      (["http://x/v1/chat/completions"], some (.ok "Hello")) ∧
      "Hel" ++ "lo" = "Hello") := by
  refine ⟨?_, ?_, rfl, rfl, rfl⟩
  · intro items hitems
    exact ⟨sseLoop_delivers items hitems,
      string_join_filter_ne_empty (items.map Prod.snd)⟩
  · intro body t hbody
    unfold decodeChatCompletionResponse
    rw [hbody]

/-- Witness for C3 at the two-fragment stream `Hel`, `lo` and the
non-streaming body carrying `Hello`. -/
theorem c3_streaming_delivery_and_equivalence_witness :
    ((∀ pf ∈ [("\x7b\"choices\":[\x7b\"delta\":\x7b\"content\":\"Hel\"\x7d\x7d]\x7d", "Hel"),
              ("\x7b\"choices\":[\x7b\"delta\":\x7b\"content\":\"lo\"\x7d\x7d]\x7d", "lo")],
        trimSpace ("data: " ++ pf.1) = "data: " ++ pf.1 ∧
        pf.1 ≠ "[DONE]" ∧
        unmarshalChunk pf.1 = some ([pf.2], none)) ∧
      sseLoop (sseDataLines
          ([("\x7b\"choices\":[\x7b\"delta\":\x7b\"content\":\"Hel\"\x7d\x7d]\x7d", "Hel"),
            ("\x7b\"choices\":[\x7b\"delta\":\x7b\"content\":\"lo\"\x7d\x7d]\x7d", "lo")].map
            Prod.fst)) =
        (["Hel", "lo"], ["Hel", "lo"], none)) ∧
    (unmarshalResponse helloCompletionBody = some (["Hello"], none) ∧
      decodeChatCompletionResponse helloCompletionBody = .ok "Hello") := by
  constructor
  · constructor
    · intro pf hpf
      fin_cases hpf <;> exact ⟨rfl, by decide, rfl⟩
    · have h := (c3_streaming_delivery_and_equivalence.1
        [("\x7b\"choices\":[\x7b\"delta\":\x7b\"content\":\"Hel\"\x7d\x7d]\x7d", "Hel"),
         ("\x7b\"choices\":[\x7b\"delta\":\x7b\"content\":\"lo\"\x7d\x7d]\x7d", "lo")]
        (by intro pf hpf; fin_cases hpf <;> exact ⟨rfl, by decide, rfl⟩)).1
      exact h
  · exact ⟨rfl,
      c3_streaming_delivery_and_equivalence.2.1 helloCompletionBody "Hello" rfl⟩

/-- Witness for C5 at the response
`"Phase: analysis\nReasoning: because"` (no action line). -/
theorem c5_validation_aborts_before_handlers_witness :
    ((parseDecision "Phase: analysis\nReasoning: because").action = "" ∨
      (parseDecision "Phase: analysis\nReasoning: because").reasoning = "") ∧
    ((∃ e, getInitialDecision "Phase: analysis\nReasoning: because" =
            .error ("invalid decision: " ++ e) ∧
        processPromptWorker "Phase: analysis\nReasoning: because" =
          [.errorMsg ("Error analyzing prompt: " ++ ("invalid decision: " ++ e))]) ∧
      ∀ p, WorkerEvent.handlerRun p ∉
        processPromptWorker "Phase: analysis\nReasoning: because") :=
  ⟨Or.inl (by decide),
    c5_validation_aborts_before_handlers "Phase: analysis\nReasoning: because"
      (Or.inl (by decide))⟩

end Tama
